import Mathlib

/-!
Shallow embedding of the `gocsv` CSV-to-struct decoder (`reader.go`,
`errors.go`) and proofs about its field-binding and value-coercion engine.

Go standard-library primitives (`strings.Split`, `strings.Contains`,
`strings.TrimSpace`, `strings.ToLower`) are modelled structurally over
`List Char` so that every definition reduces in the kernel.  The
`strconv` and `time` parsing primitives are external collaborators of the
package; the development is parameterised over them (`Oracles`), and a
concrete executable model (`goOracles`) faithful to Go's layout-token
semantics on the inputs exercised here instantiates them in witnesses.
-/

namespace gocsv

/-- Model of an underlying (wrapped) Go error value: either an error
produced by the standard library (`strconv.ParseInt`, `time.Parse`, ...),
whose message is not modelled, or a `fmt.Errorf` message produced by the
repository's own code. -/
inductive GoErr where
  | external
  | msg (s : String)
deriving DecidableEq, Repr

/-- `CSVError` from `errors.go`: field name, offending value, attempted
type, and optional wrapped cause. -/
structure CSVError where
  Field : String
  Value : String
  «Type» : String
  Wrapped : Option GoErr
deriving DecidableEq, Repr

/-- Decidable equality for `Except`, needed so witnesses can be settled
by `decide`. -/
def exceptDecEq {ε α : Type} [DecidableEq ε] [DecidableEq α] :
    (a b : Except ε α) → Decidable (a = b)
  | .ok a, .ok b =>
    if h : a = b then .isTrue (by rw [h]) else .isFalse (by simp [h])
  | .error a, .error b =>
    if h : a = b then .isTrue (by rw [h]) else .isFalse (by simp [h])
  | .ok _, .error _ => .isFalse (by simp)
  | .error _, .ok _ => .isFalse (by simp)

instance {ε α : Type} [DecidableEq ε] [DecidableEq α] :
    DecidableEq (Except ε α) := exceptDecEq

/-! ### Models of Go `strings` primitives (structural, kernel-reducible) -/

/-- `leadsWith pat cs` is true when `pat` occurs at the start of `cs`
(model of prefix matching used by `strings.Contains`). -/
def leadsWith : List Char → List Char → Bool
  | [], _ => true
  | _ :: _, [] => false
  | a :: as, b :: bs => a = b && leadsWith as bs

/-- Substring occurrence over char lists. -/
def containsSubList (needle : List Char) : List Char → Bool
  | [] => needle.isEmpty
  | c :: cs => leadsWith needle (c :: cs) || containsSubList needle cs

/-- Model of `strings.Contains s sub`. -/
def strContains (s sub : String) : Bool :=
  containsSubList sub.data s.data

/-- Model of `strings.Split s ","` (split on every comma; Go's `Split`
with a one-character separator). -/
def splitCommaList : List Char → List (List Char)
  | [] => [[]]
  | c :: cs =>
    if c = ',' then [] :: splitCommaList cs
    else
      match splitCommaList cs with
      | [] => [[c]]
      | x :: xs => (c :: x) :: xs

/-- Model of `strings.Split tag ","`. -/
def splitOnComma (s : String) : List String :=
  (splitCommaList s.data).map String.mk

/-- ASCII whitespace recognised by the model of `strings.TrimSpace`
(space, tab, newline, vertical tab, form feed, carriage return; the
claims only exercise ASCII input). -/
def isSpaceChar (c : Char) : Bool :=
  c = ' ' || c = '\t' || c = '\n' || c = (Char.ofNat 11) || c = (Char.ofNat 12) || c = '\r'

/-- Model of `strings.TrimSpace`. -/
def trimSpace (s : String) : String :=
  String.mk (((s.data.dropWhile isSpaceChar).reverse.dropWhile isSpaceChar).reverse)

/-- ASCII lowering of one character (model of Unicode lowering restricted
to the ASCII range actually exercised by the claims). -/
def lowerChar (c : Char) : Char :=
  if 'A' ≤ c && c ≤ 'Z' then Char.ofNat (c.toNat + 32) else c

/-- Model of `strings.ToLower`. -/
def toLowerStr (s : String) : String :=
  String.mk (s.data.map lowerChar)

/-! ### The boolean coercer (`parseBool`, reader.go lines 279-289) -/

/-- `parseBool` from reader.go: lowercases, then matches the lenient
boolean vocabulary; anything else is a `fmt.Errorf` message. -/
def parseBool (value : String) : Except String Bool :=
  let v := toLowerStr value
  if v = "true" ∨ v = "1" ∨ v = "yes" ∨ v = "y" then .ok true
  else if v = "false" ∨ v = "0" ∨ v = "no" ∨ v = "n" then .ok false
  else .error ("invalid boolean value: " ++ v)

/-! ### Model of Go `time.Time` values and layout constants

The package aliases the Go `time` package's layout constants (used
unqualified in `reader.go`); their values are the standard ones. -/

/-- A wall-clock instant as the model keeps it (UTC; zone offsets are not
modelled — no claim exercises a zoned value). -/
structure GoTime where
  year : Nat
  month : Nat
  day : Nat
  hour : Nat
  minute : Nat
  second : Nat
deriving DecidableEq, Repr

def Layout : String := "01/02 03:04:05PM '06 -0700"
def ANSIC : String := "Mon Jan _2 15:04:05 2006"
def UnixDate : String := "Mon Jan _2 15:04:05 MST 2006"
def RubyDate : String := "Mon Jan 02 15:04:05 -0700 2006"
def RFC822 : String := "02 Jan 06 15:04 MST"
def RFC822Z : String := "02 Jan 06 15:04 -0700"
def RFC850 : String := "Monday, 02-Jan-06 15:04:05 MST"
def RFC1123 : String := "Mon, 02 Jan 2006 15:04:05 MST"
def RFC1123Z : String := "Mon, 02 Jan 2006 15:04:05 -0700"
def RFC3339 : String := "2006-01-02T15:04:05Z07:00"
def RFC3339Nano : String := "2006-01-02T15:04:05.999999999Z07:00"
def Kitchen : String := "3:04PM"
def Stamp : String := "Jan _2 15:04:05"
def StampMilli : String := "Jan _2 15:04:05.000"
def StampMicro : String := "Jan _2 15:04:05.000000"
def StampNano : String := "Jan _2 15:04:05.000000000"
def DateTime : String := "2006-01-02 15:04:05"
def DateOnly : String := "2006-01-02"
def TimeOnly : String := "15:04:05"

/-! ### Executable model of Go layout-based formatting and parsing

`goFormat layout t` and `goParse layout text` interpret Go reference-time
layout strings over the token vocabulary occurring in the layouts above,
mirroring `time.Time.Format` and `time.Parse` on the (zone-free, ASCII)
inputs the proofs evaluate. -/

/-- The layout tokens of Go's reference time that occur in the layouts
this development evaluates. -/
inductive LayTok where
  | year4 | year2
  | monthFull | monthAbbr | month2 | month1
  | weekdayFull | weekdayAbbr
  | day2 | dayPad | day1
  | hour24 | hour12pad | hour12
  | minute2 | minute1
  | second2 | second1
  | upperAMPM | lowerAMPM
  | zoneAbbr | zoneISO | zoneColon | zoneNum
  | fracZero (n : Nat) | fracNine (n : Nat)
  | lit (c : Char)
deriving DecidableEq, Repr

/-- The std chunks tried greedily, longest-first, when tokenizing a
layout (mirrors `time.nextStdChunk`'s outcome on these layouts). -/
def stdChunks : List (List Char × LayTok) :=
  [("2006".data, .year4), ("January".data, .monthFull), ("Monday".data, .weekdayFull),
   (".000000000".data, .fracZero 9), (".999999999".data, .fracNine 9),
   (".000000".data, .fracZero 6), (".999999".data, .fracNine 6),
   (".000".data, .fracZero 3), (".999".data, .fracNine 3),
   ("Z07:00".data, .zoneISO), ("-07:00".data, .zoneColon), ("-0700".data, .zoneNum),
   ("Jan".data, .monthAbbr), ("Mon".data, .weekdayAbbr), ("MST".data, .zoneAbbr),
   ("01".data, .month2), ("02".data, .day2), ("_2".data, .dayPad),
   ("03".data, .hour12pad), ("04".data, .minute2), ("05".data, .second2),
   ("06".data, .year2), ("15".data, .hour24), ("PM".data, .upperAMPM), ("pm".data, .lowerAMPM),
   ("1".data, .month1), ("2".data, .day1), ("3".data, .hour12),
   ("4".data, .minute1), ("5".data, .second1)]

/-- First chunk of `stdChunks` matching at the head of `cs`, with the
rest of `cs` after it. -/
def matchChunk (cs : List Char) : List (List Char × LayTok) → Option (LayTok × List Char)
  | [] => none
  | (pat, tok) :: rest =>
    if leadsWith pat cs then some (tok, cs.drop pat.length)
    else matchChunk cs rest

/-- Tokenize a layout; `fuel` bounds the recursion (each step consumes at
least one character, so `cs.length` fuel suffices). -/
def tokenizeAux : Nat → List Char → List LayTok
  | 0, _ => []
  | _ + 1, [] => []
  | fuel + 1, c :: cs =>
    match matchChunk (c :: cs) stdChunks with
    | some (tok, rest) => tok :: tokenizeAux fuel rest
    | none => .lit c :: tokenizeAux fuel cs

def tokenize (layout : String) : List LayTok :=
  tokenizeAux layout.data.length layout.data

def digitChar (n : Nat) : Char := Char.ofNat (48 + n % 10)

def pad2 (n : Nat) : List Char := [digitChar (n / 10), digitChar n]

def pad4 (n : Nat) : List Char :=
  [digitChar (n / 1000), digitChar (n / 100), digitChar (n / 10), digitChar n]

/-- Unpadded rendering of a value below 100. -/
def numStr (n : Nat) : List Char :=
  if n < 10 then [digitChar n] else pad2 n

def monthAbbrs : List String :=
  ["Jan", "Feb", "Mar", "Apr", "May", "Jun", "Jul", "Aug", "Sep", "Oct", "Nov", "Dec"]

def monthFulls : List String :=
  ["January", "February", "March", "April", "May", "June", "July", "August",
   "September", "October", "November", "December"]

def weekdayAbbrs : List String :=
  ["Sun", "Mon", "Tue", "Wed", "Thu", "Fri", "Sat"]

def weekdayFulls : List String :=
  ["Sunday", "Monday", "Tuesday", "Wednesday", "Thursday", "Friday", "Saturday"]

/-- Day of week (0 = Sunday) by Sakamoto's method. -/
def dayOfWeek (y m d : Nat) : Nat :=
  let t := [0, 3, 2, 5, 0, 3, 5, 1, 4, 6, 2, 4]
  let y := if m < 3 then y - 1 else y
  (y + y / 4 - y / 100 + y / 400 + t.getD (m - 1) 0 + d) % 7

/-- 12-hour clock value of an hour (0..23 → 1..12). -/
def hour12of (h : Nat) : Nat :=
  let r := h % 12
  if r = 0 then 12 else r

/-- Render one layout token from an instant (UTC). -/
def renderTok (t : GoTime) : LayTok → List Char
  | .year4 => pad4 t.year
  | .year2 => pad2 (t.year % 100)
  | .monthFull => ((monthFulls.getD (t.month - 1) "")).data
  | .monthAbbr => ((monthAbbrs.getD (t.month - 1) "")).data
  | .month2 => pad2 t.month
  | .month1 => numStr t.month
  | .weekdayFull => ((weekdayFulls.getD (dayOfWeek t.year t.month t.day) "")).data
  | .weekdayAbbr => ((weekdayAbbrs.getD (dayOfWeek t.year t.month t.day) "")).data
  | .day2 => pad2 t.day
  | .dayPad => if t.day < 10 then ' ' :: [digitChar t.day] else pad2 t.day
  | .day1 => numStr t.day
  | .hour24 => pad2 t.hour
  | .hour12pad => pad2 (hour12of t.hour)
  | .hour12 => numStr (hour12of t.hour)
  | .minute2 => pad2 t.minute
  | .minute1 => numStr t.minute
  | .second2 => pad2 t.second
  | .second1 => numStr t.second
  | .upperAMPM => if t.hour ≥ 12 then "PM".data else "AM".data
  | .lowerAMPM => if t.hour ≥ 12 then "pm".data else "am".data
  | .zoneAbbr => "UTC".data
  | .zoneISO => ['Z']
  | .zoneColon => "+00:00".data
  | .zoneNum => "+0000".data
  | .fracZero n => '.' :: List.replicate n '0'
  | .fracNine _ => []
  | .lit c => [c]

/-- Partial parse state: the components seen so far. -/
structure PState where
  y4 : Option Nat := none
  y2 : Option Nat := none
  mon : Option Nat := none
  day : Option Nat := none
  h24 : Option Nat := none
  h12 : Option Nat := none
  minu : Option Nat := none
  sec : Option Nat := none
  pm : Option Bool := none
deriving DecidableEq, Repr

def isDigit (c : Char) : Bool := '0' ≤ c && c ≤ '9'

def digVal (c : Char) : Nat := c.toNat - 48

/-- Read exactly two digits. -/
def read2 : List Char → Option (Nat × List Char)
  | a :: b :: rest =>
    if isDigit a && isDigit b then some (digVal a * 10 + digVal b, rest) else none
  | _ => none

/-- Read exactly four digits. -/
def read4 : List Char → Option (Nat × List Char)
  | a :: b :: c :: d :: rest =>
    if isDigit a && isDigit b && isDigit c && isDigit d then
      some (((digVal a * 10 + digVal b) * 10 + digVal c) * 10 + digVal d, rest)
    else none
  | _ => none

/-- Read one or two digits (Go's unpadded numeric layout values). -/
def read1or2 : List Char → Option (Nat × List Char)
  | a :: b :: rest =>
    if isDigit a then
      if isDigit b then some (digVal a * 10 + digVal b, rest)
      else some (digVal a, b :: rest)
    else none
  | [a] => if isDigit a then some (digVal a, []) else none
  | [] => none

/-- Read a space-padded day (`_2`): a space then one digit, or two digits. -/
def readPadded : List Char → Option (Nat × List Char)
  | ' ' :: a :: rest => if isDigit a then some (digVal a, rest) else none
  | cs => read2 cs

/-- Match one name of a list at the start of the input; yields its
one-based index and the remaining input. -/
def readNameAux (cs : List Char) (i : Nat) : List String → Option (Nat × List Char)
  | [] => none
  | n :: rest =>
    if leadsWith n.data cs then some (i, cs.drop n.data.length)
    else readNameAux cs (i + 1) rest

def readName (names : List String) (cs : List Char) : Option (Nat × List Char) :=
  readNameAux cs 1 names

/-- Consume one layout token from the input, updating the parse state
(mirrors `time.Parse`'s treatment of each std chunk; weekday names are
read but otherwise ignored, as Go documents; zone offsets are consumed
without shifting the wall clock, which no exercised input has). -/
def consumeTok (st : PState) (cs : List Char) : LayTok → Option (PState × List Char)
  | .year4 => (read4 cs).map fun (n, rest) => ({ st with y4 := some n }, rest)
  | .year2 => (read2 cs).map fun (n, rest) => ({ st with y2 := some n }, rest)
  | .monthFull => (readName monthFulls cs).map fun (n, rest) => ({ st with mon := some n }, rest)
  | .monthAbbr => (readName monthAbbrs cs).map fun (n, rest) => ({ st with mon := some n }, rest)
  | .month2 => (read2 cs).map fun (n, rest) => ({ st with mon := some n }, rest)
  | .month1 => (read1or2 cs).map fun (n, rest) => ({ st with mon := some n }, rest)
  | .weekdayFull => (readName weekdayFulls cs).map fun (_, rest) => (st, rest)
  | .weekdayAbbr => (readName weekdayAbbrs cs).map fun (_, rest) => (st, rest)
  | .day2 => (read2 cs).map fun (n, rest) => ({ st with day := some n }, rest)
  | .dayPad => (readPadded cs).map fun (n, rest) => ({ st with day := some n }, rest)
  | .day1 => (read1or2 cs).map fun (n, rest) => ({ st with day := some n }, rest)
  | .hour24 => (read2 cs).map fun (n, rest) => ({ st with h24 := some n }, rest)
  | .hour12pad => (read2 cs).map fun (n, rest) => ({ st with h12 := some n }, rest)
  | .hour12 => (read1or2 cs).map fun (n, rest) => ({ st with h12 := some n }, rest)
  | .minute2 => (read2 cs).map fun (n, rest) => ({ st with minu := some n }, rest)
  | .minute1 => (read1or2 cs).map fun (n, rest) => ({ st with minu := some n }, rest)
  | .second2 => (read2 cs).map fun (n, rest) => ({ st with sec := some n }, rest)
  | .second1 => (read1or2 cs).map fun (n, rest) => ({ st with sec := some n }, rest)
  | .upperAMPM =>
    if leadsWith "PM".data cs then some ({ st with pm := some true }, cs.drop 2)
    else if leadsWith "AM".data cs then some ({ st with pm := some false }, cs.drop 2)
    else none
  | .lowerAMPM =>
    if leadsWith "pm".data cs then some ({ st with pm := some true }, cs.drop 2)
    else if leadsWith "am".data cs then some ({ st with pm := some false }, cs.drop 2)
    else none
  | .zoneAbbr =>
    match cs.span (fun c => 'A' ≤ c && c ≤ 'Z') with
    | ([], _) => none
    | (_ :: _, rest) => some (st, rest)
  | .zoneISO =>
    match cs with
    | 'Z' :: rest => some (st, rest)
    | sign :: a :: b :: ':' :: c :: d :: rest =>
      if (sign = '+' || sign = '-') && isDigit a && isDigit b && isDigit c && isDigit d then
        some (st, rest)
      else none
    | _ => none
  | .zoneColon =>
    match cs with
    | sign :: a :: b :: ':' :: c :: d :: rest =>
      if (sign = '+' || sign = '-') && isDigit a && isDigit b && isDigit c && isDigit d then
        some (st, rest)
      else none
    | _ => none
  | .zoneNum =>
    match cs with
    | sign :: a :: b :: c :: d :: rest =>
      if (sign = '+' || sign = '-') && isDigit a && isDigit b && isDigit c && isDigit d then
        some (st, rest)
      else none
    | _ => none
  | .fracZero n =>
    match cs with
    | '.' :: rest =>
      let digits := rest.take n
      if digits.length = n && digits.all isDigit then some (st, rest.drop n) else none
    | _ => none
  | .fracNine _ =>
    match cs with
    | '.' :: c :: _ =>
      if isDigit c then
        let digits := (cs.drop 1).takeWhile isDigit
        some (st, (cs.drop 1).drop digits.length)
      else some (st, cs)
    | _ => some (st, cs)
  | .lit c =>
    match cs with
    | c2 :: rest => if c = c2 then some (st, rest) else none
    | [] => none

/-- Run all layout tokens over the input. -/
def runToks (st : PState) (cs : List Char) : List LayTok → Option (PState × List Char)
  | [] => some (st, cs)
  | tok :: toks =>
    match consumeTok st cs tok with
    | none => none
    | some (st2, rest) => runToks st2 rest toks

/-- Days in a month (Gregorian). -/
def daysInMonth (y m : Nat) : Nat :=
  if m = 2 then
    if y % 4 = 0 && (y % 100 != 0 || y % 400 = 0) then 29 else 28
  else if m = 4 || m = 6 || m = 9 || m = 11 then 30
  else 31

/-- Assemble the parse state into an instant, applying Go's defaults
(missing date parts default to January 1 of year 0, missing clock parts
to 0), the two-digit-year window, the AM/PM adjustment, and Go's range
checks. -/
def finishParse (st : PState) : Option GoTime :=
  let year := match st.y4 with
    | some y => y
    | none => match st.y2 with
      | some n => if n ≥ 69 then 1900 + n else 2000 + n
      | none => 0
  let month := st.mon.getD 1
  let day := st.day.getD 1
  let hour := match st.h24 with
    | some h => h
    | none => match st.h12 with
      | some h =>
        match st.pm with
        | some true => h % 12 + 12
        | some false => h % 12
        | none => h
      | none => 0
  let minute := st.minu.getD 0
  let second := st.sec.getD 0
  if 1 ≤ month && month ≤ 12 && 1 ≤ day && day ≤ daysInMonth year month &&
      hour ≤ 23 && minute ≤ 59 && second ≤ 59 &&
      (match st.h12 with | some h => 1 ≤ h && h ≤ 12 | none => true) &&
      (match st.h24 with | some h => h ≤ 23 | none => true) then
    some ⟨year, month, day, hour, minute, second⟩
  else none

/-- Model of `time.Parse(layout, value)`: every layout token must
consume, the whole input must be consumed, and the components must pass
the range checks. -/
def goParse (layout value : String) : Option GoTime :=
  match runToks {} value.data (tokenize layout) with
  | some (st, []) => finishParse st
  | _ => none

/-- Model of `t.Format(layout)` for a UTC instant. -/
def goFormat (layout : String) (t : GoTime) : String :=
  String.mk ((tokenize layout).flatMap (renderTok t))

/-! ### External coercion collaborators

`strconv.ParseInt`, `strconv.ParseFloat` and `time.Parse`/`Format` are
standard-library collaborators of the package; the decoder definitions
are parameterised over them, and `goOracles` below instantiates them
with executable models for witnesses. -/

/-- Stand-in for an IEEE float64 produced by `strconv.ParseFloat`; no
claim inspects the numeric value, only success or failure, so the model
keeps an uninterpreted representative. -/
structure GoFloat where
  rep : String
deriving DecidableEq, Repr

structure Oracles where
  parseInt : String → Option Int
  parseFloat : String → Option GoFloat
  timeParse : String → String → Option GoTime
  timeFormat : String → GoTime → String

/-! ### The reader's data model -/

/-- The reflected view of a Go field type, as `setFieldValue` dispatches
on it: `time.Time` first, then string/int/float/bool kinds, pointers
unwrapped recursively, and everything else unsupported (the int model
merges Go's int/int8/int16/int32/int64 kinds, the float model its
float32/float64 kinds, which `setFieldValue` treats alike). -/
inductive GoType where
  | string
  | int
  | float
  | bool
  | time
  | ptr (elem : GoType)
  | unsupported (kindName : String)
deriving DecidableEq, Repr

/-- A Go field value. A pointer is nil or points at a value. -/
inductive GoValue where
  | str (s : String)
  | intv (i : Int)
  | floatv (f : GoFloat)
  | boolv (b : Bool)
  | timev (t : GoTime)
  | ptrNil (elem : GoType)
  | ptr (v : GoValue)
  | unsupportedVal (kindName : String)
deriving DecidableEq, Repr

/-- The zero value of each type (what a fresh record's field holds; the
zero `time.Time` is January 1 of year 1). -/
def zeroValue : GoType → GoValue
  | .string => .str ""
  | .int => .intv 0
  | .float => .floatv ⟨"0"⟩
  | .bool => .boolv false
  | .time => .timev ⟨1, 1, 1, 0, 0, 0⟩
  | .ptr e => .ptrNil e
  | .unsupported k => .unsupportedVal k

/-- One declared struct field: its Go name, its `csv` tag (`""` when the
tag is absent, as `reflect.StructTag.Get` yields), its type, and whether
reflection can set it (unexported fields cannot). -/
structure StructField where
  Name : String
  tag : String
  type : GoType
  canSet : Bool
deriving DecidableEq, Repr

/-- The `CSVReader`'s state as the claims exercise it: the header row
and the current default time layout. The Go struct's `headerMap` is the
map built from `headers` by insertion in order, so a duplicate name
resolves to its last index; `headerIndex` below reproduces that. The
`csv.Reader`, file handle and mutex are the excluded collaborators. -/
structure CSVReaderState where
  headers : List String
  timeLayout : String
deriving DecidableEq, Repr

/-- Lookup in the header map: the LAST index carrying `name` (Go map
insertion overwrites), `none` when the column is absent. -/
def headerIndex : List String → String → Option Nat
  | [], _ => none
  | h :: hs, name =>
    match headerIndex hs name with
    | some j => some (j + 1)
    | none => if h = name then some 0 else none

/-! ### Tag parsing (`parseCSVTag`, reader.go lines 167-179) -/

structure csvTag where
  name : String
  timeFormat : String
deriving DecidableEq, Repr

/-- `parseCSVTag`: an absent tag binds the field under its own name with
the reader's default time layout; otherwise the tag is split on every
comma (`strings.Split`), the first part is the column name, and when
more than one part exists the SECOND part is the time format. The `[]`
arm is unreachable: splitting always yields at least one part. -/
def parseCSVTag (timeLayout : String) (field : StructField) : csvTag :=
  if field.tag = "" then ⟨field.Name, timeLayout⟩
  else
    match splitOnComma field.tag with
    | [] => ⟨field.Name, timeLayout⟩
    | [p] => ⟨p, timeLayout⟩
    | p0 :: p1 :: _ => ⟨p0, p1⟩

/-! ### Layout validation (`ValidateTimeLayout`, reader.go lines 68-100)
and `SetTimeLayout` (lines 52-65) -/

/-- The reference instant `time.Date(2006, January, 2, 15, 4, 5, 0, UTC)`
used by `ValidateTimeLayout`. -/
def referenceTime : GoTime := ⟨2006, 1, 2, 15, 4, 5⟩

/-- `ValidateTimeLayout`: empty layouts are rejected; the layout must
contain "2006", "01" or "Jan", and "02"; the reference instant rendered
with the layout must re-parse, and re-rendering the parsed time must
reproduce the identical rendering. -/
def ValidateTimeLayout (ora : Oracles) (layout : String) : Except String Unit :=
  if layout = "" then .error "time layout cannot be empty"
  else
    let hasYear := strContains layout "2006"
    let hasMonth := strContains layout "01" || strContains layout "Jan"
    let hasDay := strContains layout "02"
    if !hasYear || !hasMonth || !hasDay then
      .error "invalid time layout: must contain at least year, month, and day components"
    else
      let formatted := ora.timeFormat layout referenceTime
      match ora.timeParse layout formatted with
      | none => .error ("invalid time layout " ++ layout)
      | some parsedTime =>
        if formatted = ora.timeFormat layout parsedTime then .ok ()
        else .error "invalid time layout: inconsistent parsing results"

/-- `SetTimeLayout` mutates the receiver; the model returns the new
state together with the returned error (`none` on success). -/
def SetTimeLayout (ora : Oracles) (st : CSVReaderState) (layout : String) :
    CSVReaderState × Option CSVError :=
  match ValidateTimeLayout ora layout with
  | .error e => (st, some ⟨"timeLayout", layout, "string", some (.msg e)⟩)
  | .ok _ => ({ st with timeLayout := layout }, none)

/-! ### Timestamp coercion (`setTimeValue` lines 251-276,
`sanitizeTimeValue` lines 291-310) -/

/-- The fallback layouts tried, in order, by `sanitizeTimeValue`. -/
def commonLayouts : List String :=
  [Layout, ANSIC, UnixDate, RubyDate, RFC822, RFC822Z,
   RFC850, RFC1123, RFC1123Z, RFC3339, RFC3339Nano,
   Kitchen, Stamp, StampMilli, StampMicro, StampNano,
   DateTime, DateOnly, TimeOnly]

/-- The scan loop of `sanitizeTimeValue`: the first layout of the list
that parses the value wins, and the parsed instant is re-rendered with
the reader's default layout. -/
def scanLayouts (ora : Oracles) (timeLayout value : String) : List String → Option String
  | [] => none
  | l :: ls =>
    match ora.timeParse l value with
    | some t => some (ora.timeFormat timeLayout t)
    | none => scanLayouts ora timeLayout value ls

/-- `sanitizeTimeValue`: an empty value sanitizes to the empty string;
otherwise the common layouts are scanned in order and the first success
is re-rendered with the default layout; no success is an error. -/
def sanitizeTimeValue (ora : Oracles) (timeLayout value : String) : Except String String :=
  if value = "" then .ok ""
  else
    match scanLayouts ora timeLayout value commonLayouts with
    | some s => .ok s
    | none => .error ("unable to parse time value: " ++ value)

/-- `setTimeValue`: parse with the effective format; on failure sanitize
(fallback scan) and re-parse the sanitized rendering with the reader's
default layout; both failure paths yield a `time.Time`-kind `CSVError`
wrapping the original parse failure and carrying the original raw value.
`fieldName` arrives already lowercased (see `setFieldValue`). -/
def setTimeValue (ora : Oracles) (timeLayout value timeFormat fieldName : String) :
    Except CSVError GoTime :=
  match ora.timeParse timeFormat value with
  | some t => .ok t
  | none =>
    match sanitizeTimeValue ora timeLayout value with
    | .error _ => .error ⟨fieldName, value, "time.Time", some .external⟩
    | .ok sanitizedValue =>
      match ora.timeParse timeLayout sanitizedValue with
      | none => .error ⟨fieldName, value, "time.Time", some .external⟩
      | some t => .ok t

/-! ### Field coercion (`setFieldValue`, reader.go lines 181-249) -/

/-- `setFieldValue`: the Go function mutates the destination field in
place and returns only an error, so the model returns the field's value
as the call leaves it together with the returned error. A nil pointer
field is allocated in place (`reflect.New`) BEFORE the inner coercion
runs, so the pointer ends non-nil — pointing at the element's zero
value — even when the coercion then fails; `time.Time` fields delegate
to `setTimeValue` and are written only on success; strings always
succeed; int, float and bool kinds parse the text, write only on
success, and wrap failures in a `CSVError` tagged with the lowercased
field name and the kind; any other kind errors without writing. -/
def setFieldValue (ora : Oracles) (timeLayout : String) :
    GoType → GoValue → String → String → String → GoValue × Option CSVError
  | .ptr elem, cur, value, timeFormat, fieldName =>
    let inner := match cur with
      | .ptr v => v
      | _ => zeroValue elem
    let r := setFieldValue ora timeLayout elem inner value timeFormat fieldName
    (.ptr r.1, r.2)
  | .time, cur, value, timeFormat, fieldName =>
    match setTimeValue ora timeLayout value timeFormat (toLowerStr fieldName) with
    | .error e => (cur, some e)
    | .ok t => (.timev t, none)
  | .string, _, value, _, _ => (.str value, none)
  | .int, cur, value, _, fieldName =>
    match ora.parseInt value with
    | none => (cur, some ⟨toLowerStr fieldName, value, "int", some .external⟩)
    | some i => (.intv i, none)
  | .float, cur, value, _, fieldName =>
    match ora.parseFloat value with
    | none => (cur, some ⟨toLowerStr fieldName, value, "float", some .external⟩)
    | some f => (.floatv f, none)
  | .bool, cur, value, _, fieldName =>
    match parseBool value with
    | .error e => (cur, some ⟨toLowerStr fieldName, value, "bool", some (.msg e)⟩)
    | .ok b => (.boolv b, none)
  | .unsupported k, cur, value, _, fieldName =>
    (cur, some ⟨toLowerStr fieldName, value, k, none⟩)

/-! ### Row population (`populateStruct`, reader.go lines 124-160)

The Go loop mutates the destination struct in place and returns on the
first error; the model threads the field values explicitly and returns
the values as mutated when the loop stops, together with the returned
error (`none` when the loop completes). -/

def populateFields (ora : Oracles) (st : CSVReaderState) :
    List (StructField × GoValue) → List String → List GoValue × Option CSVError
  | [], _ => ([], none)
  | (field, fv) :: rest, record =>
    if field.canSet = false then
      ((fv :: (populateFields ora st rest record).1), (populateFields ora st rest record).2)
    else
      if (parseCSVTag st.timeLayout field).name = "-" then
        ((fv :: (populateFields ora st rest record).1), (populateFields ora st rest record).2)
      else
        match headerIndex st.headers (parseCSVTag st.timeLayout field).name with
        | none =>
          ((fv :: (populateFields ora st rest record).1), (populateFields ora st rest record).2)
        | some columnIndex =>
          if record.length ≤ columnIndex then
            (fv :: rest.map Prod.snd,
             some ⟨(parseCSVTag st.timeLayout field).name, "index out of range", "", none⟩)
          else
            if trimSpace (record[columnIndex]?.getD "") = "" then
              ((fv :: (populateFields ora st rest record).1), (populateFields ora st rest record).2)
            else
              match setFieldValue ora st.timeLayout field.type fv
                  (trimSpace (record[columnIndex]?.getD ""))
                  (parseCSVTag st.timeLayout field).timeFormat field.Name with
              | (v, some e) => (v :: rest.map Prod.snd, some e)
              | (v, none) =>
                ((v :: (populateFields ora st rest record).1), (populateFields ora st rest record).2)

/-- `populateStruct` over a destination struct given as its fields with
their current values. -/
def populateStruct (ora : Oracles) (st : CSVReaderState)
    (dest : List (StructField × GoValue)) (record : List String) :
    List GoValue × Option CSVError :=
  populateFields ora st dest record

/-! ### `ReadNext` (reader.go lines 103-122) -/

/-- The destination argument of `ReadNext`, as reflection classifies it;
each constructor carries the `%T` rendering of its Go type used in the
error value. -/
inductive Dest where
  | nilPtr (typeName : String)
  | nonPointer (typeName : String)
  | ptrToNonStruct (typeName : String)
  | ptrToStruct (fields : List (StructField × GoValue))
deriving Repr

/-- What one `ReadNext` call yields: `eof` from the row source, a
destination-check `CSVError`, or the populated field values with the
populate error if any. -/
inductive ReadResult where
  | eof
  | destErr (e : CSVError)
  | populated (values : List GoValue) (err : Option CSVError)
deriving Repr

/-- `ReadNext`: reads the next record from the row source FIRST (so the
cursor advances even when the destination check fails), then checks the
destination is a non-nil pointer (else a "pointer"-type `CSVError`),
then that it points at a struct (else a "struct"-type `CSVError`), then
populates. The model's row source is the list of remaining records; the
first component of the result is the rows left after the call. -/
def ReadNext (ora : Oracles) (st : CSVReaderState) (rows : List (List String))
    (dest : Dest) : List (List String) × ReadResult :=
  match rows with
  | [] => ([], .eof)
  | record :: rest =>
    (rest,
      match dest with
      | .nilPtr typeName => .destErr ⟨"destination", typeName, "pointer", none⟩
      | .nonPointer typeName => .destErr ⟨"destination", typeName, "pointer", none⟩
      | .ptrToNonStruct typeName => .destErr ⟨"destination", typeName, "struct", none⟩
      | .ptrToStruct fields =>
        .populated (populateStruct ora st fields record).1 (populateStruct ora st fields record).2)

/-! ### Concrete oracles for witnesses -/

def digitsToNatAux : List Char → Nat → Option Nat
  | [], acc => some acc
  | c :: rest, acc => if isDigit c then digitsToNatAux rest (acc * 10 + digVal c) else none

/-- Digits of an ASCII decimal numeral. -/
def digitsToNat : List Char → Option Nat
  | [] => none
  | cs => digitsToNatAux cs 0

/-- Sample `strconv.ParseInt(value, 10, 64)` model used in witnesses:
optional sign, decimal digits, 64-bit signed range. -/
def parseIntSimple (s : String) : Option Int :=
  match s.data with
  | '-' :: rest => (digitsToNat rest).bind fun n =>
      if n ≤ 9223372036854775808 then some (-(n : Int)) else none
  | '+' :: rest => (digitsToNat rest).bind fun n =>
      if n ≤ 9223372036854775807 then some (n : Int) else none
  | cs => (digitsToNat cs).bind fun n =>
      if n ≤ 9223372036854775807 then some (n : Int) else none

/-- Sample `strconv.ParseFloat(value, 64)` model used in witnesses:
digits with at most one decimal point, optional sign. -/
def parseFloatSimple (s : String) : Option GoFloat :=
  let body := match s.data with
    | '-' :: rest => rest
    | '+' :: rest => rest
    | cs => cs
  match body.filter (fun c => !(isDigit c)) with
  | [] => if body.isEmpty then none else some ⟨s⟩
  | ['.'] => if body.length = 1 then none else some ⟨s⟩
  | _ => none

/-- The concrete oracle bundle used by witnesses and counterexamples. -/
def goOracles : Oracles :=
  ⟨parseIntSimple, parseFloatSimple, goParse, goFormat⟩

end gocsv

namespace gocsv

def testHeaders : List String :=
  ["string_field", "int_field", "float_field", "bool_field", "date_field", "optional_field"]

def testFields : List (StructField × GoValue) :=
  [(⟨"StringField", "string_field", .string, true⟩, zeroValue .string),
   (⟨"IntField", "int_field", .int, true⟩, zeroValue .int),
   (⟨"FloatField", "float_field", .float, true⟩, zeroValue .float),
   (⟨"BoolField", "bool_field", .bool, true⟩, zeroValue .bool),
   (⟨"DateField", "date_field", .time, true⟩, zeroValue .time),
   (⟨"OptionalPtr", "optional_field", .ptr .string, true⟩, zeroValue (.ptr .string)),
   (⟨"IgnoredField", "-", .string, true⟩, zeroValue .string)]

def testState : CSVReaderState := ⟨testHeaders, DateOnly⟩

end gocsv

namespace gocsv

/-- Processing a concatenation of field lists: when the first part
raises no error, the loop continues into the second part with the first
part's writes kept. -/
theorem populateFields_append_of_ok (ora : Oracles) (st : CSVReaderState)
    (pre suf : List (StructField × GoValue)) (record : List String)
    (h : (populateFields ora st pre record).2 = none) :
    populateFields ora st (pre ++ suf) record =
      ((populateFields ora st pre record).1 ++ (populateFields ora st suf record).1,
       (populateFields ora st suf record).2) := by
  induction pre with
  | nil => simp [populateFields]
  | cons hd tl ih =>
    obtain ⟨field, fv⟩ := hd
    by_cases hcs : field.canSet = false
    · simp [populateFields, List.cons_append, hcs] at h ⊢
      rw [ih h]
      simp
    · by_cases hnm : (parseCSVTag st.timeLayout field).name = "-"
      · simp [populateFields, List.cons_append, hcs, hnm] at h ⊢
        rw [ih h]
        simp
      · rcases hh : headerIndex st.headers (parseCSVTag st.timeLayout field).name with _ | ci
        · simp [populateFields, List.cons_append, hcs, hnm, hh] at h ⊢
          rw [ih h]
          simp
        · by_cases hbd : record.length ≤ ci
          · exfalso
            simp [populateFields, hcs, hnm, hh, hbd] at h
          · by_cases hem : trimSpace (record[ci]?.getD "") = ""
            · simp [populateFields, List.cons_append, hcs, hnm, hh, hbd, hem] at h ⊢
              rw [ih h]
              simp
            · rcases hsf : setFieldValue ora st.timeLayout field.type fv
                  (trimSpace (record[ci]?.getD ""))
                  (parseCSVTag st.timeLayout field).timeFormat field.Name with ⟨v, oe⟩
              rcases oe with _ | e
              · simp [populateFields, List.cons_append, hcs, hnm, hh, hbd, hem, hsf] at h ⊢
                rw [ih h]
                simp
              · exfalso
                simp [populateFields, hcs, hnm, hh, hbd, hem, hsf] at h

end gocsv

namespace gocsv

/-- C1: for every row and every bound, settable, non-skipped field whose
selected cell trims to the empty string, the populate loop leaves that
field's value untouched and continues with the remaining fields,
raising no error for this field, for plain and pointer types alike (the
field's type is unconstrained here). -/
theorem populate_empty_cell_leaves_field (ora : Oracles) (st : CSVReaderState)
    (pre : List (StructField × GoValue)) (field : StructField) (fv : GoValue)
    (rest : List (StructField × GoValue)) (record : List String) (ci : Nat)
    (hpre : (populateFields ora st pre record).2 = none)
    (hset : field.canSet = true)
    (hname : (parseCSVTag st.timeLayout field).name ≠ "-")
    (hci : headerIndex st.headers (parseCSVTag st.timeLayout field).name = some ci)
    (hlt : ci < record.length)
    (hempty : trimSpace (record[ci]?.getD "") = "") :
    populateFields ora st (pre ++ (field, fv) :: rest) record =
      ((populateFields ora st pre record).1 ++
        fv :: (populateFields ora st rest record).1,
       (populateFields ora st rest record).2) := by
  rw [populateFields_append_of_ok ora st pre ((field, fv) :: rest) record hpre]
  have hcs : ¬field.canSet = false := by simp [hset]
  have hbd : ¬record.length ≤ ci := by omega
  simp [populateFields, hcs, hname, hci, hbd, hempty]

theorem populate_empty_cell_leaves_field_witness :
    populateFields goOracles testState
      ([(⟨"StringField", "string_field", .string, true⟩, GoValue.str "")] ++
        (⟨"OptionalPtr", "optional_field", .ptr .string, true⟩, GoValue.ptrNil .string) ::
        [(⟨"IntField", "int_field", .int, true⟩, GoValue.intv 0)])
      ["v", "1", "2.5", "y", "2024-01-01", "   "] =
      ([GoValue.str "v", GoValue.ptrNil .string, GoValue.intv 1], none) := by
  have h := populate_empty_cell_leaves_field goOracles testState
    [(⟨"StringField", "string_field", .string, true⟩, GoValue.str "")]
    ⟨"OptionalPtr", "optional_field", .ptr .string, true⟩ (GoValue.ptrNil .string)
    [(⟨"IntField", "int_field", .int, true⟩, GoValue.intv 0)]
    ["v", "1", "2.5", "y", "2024-01-01", "   "] 5
    (by decide) (by decide) (by decide) (by decide) (by decide) (by decide)
  exact h.trans (by decide)

/-- C2: when the prefix of fields before some field processes without
error and that field's non-empty cell fails coercion with error `e`,
the populate loop returns exactly `e` and stops: the fields before it
keep the values already written (no rollback), the failing field holds
whatever `setFieldValue`'s in-place mutation left (`v`: its prior value
for plain kinds, a freshly allocated non-nil pointer at the element's
zero value when it was a nil pointer field, since the allocation
precedes the coercion), and every later field keeps its prior value,
unprocessed. Rows are populated by separate `populateFields` calls over
distinct value lists, so records of prior rows are untouched by
construction. -/
theorem populate_first_coercion_error_aborts_row (ora : Oracles) (st : CSVReaderState)
    (pre : List (StructField × GoValue)) (field : StructField) (fv : GoValue)
    (rest : List (StructField × GoValue)) (record : List String) (ci : Nat)
    (v : GoValue) (e : CSVError)
    (hpre : (populateFields ora st pre record).2 = none)
    (hset : field.canSet = true)
    (hname : (parseCSVTag st.timeLayout field).name ≠ "-")
    (hci : headerIndex st.headers (parseCSVTag st.timeLayout field).name = some ci)
    (hlt : ci < record.length)
    (hval : trimSpace (record[ci]?.getD "") ≠ "")
    (herr : setFieldValue ora st.timeLayout field.type fv
        (trimSpace (record[ci]?.getD ""))
        (parseCSVTag st.timeLayout field).timeFormat field.Name = (v, some e)) :
    populateFields ora st (pre ++ (field, fv) :: rest) record =
      ((populateFields ora st pre record).1 ++ v :: rest.map Prod.snd, some e) := by
  rw [populateFields_append_of_ok ora st pre ((field, fv) :: rest) record hpre]
  have hcs : ¬field.canSet = false := by simp [hset]
  have hbd : ¬record.length ≤ ci := by omega
  simp [populateFields, hcs, hname, hci, hbd, hval, herr]

theorem populate_first_coercion_error_aborts_row_witness :
    populateFields goOracles testState
      ([(⟨"StringField", "string_field", .string, true⟩, GoValue.str "")] ++
        (⟨"OptionalPtr", "optional_field", .ptr .int, true⟩, GoValue.ptrNil .int) ::
        [(⟨"IntField", "int_field", .int, true⟩, GoValue.intv 0)])
      ["v", "7", "1.5", "true", "2024-01-01", "abc"] =
      ([GoValue.str "v", GoValue.ptr (GoValue.intv 0), GoValue.intv 0],
       some ⟨"optionalptr", "abc", "int", some .external⟩) := by
  have h := populate_first_coercion_error_aborts_row goOracles testState
    [(⟨"StringField", "string_field", .string, true⟩, GoValue.str "")]
    ⟨"OptionalPtr", "optional_field", .ptr .int, true⟩ (GoValue.ptrNil .int)
    [(⟨"IntField", "int_field", .int, true⟩, GoValue.intv 0)]
    ["v", "7", "1.5", "true", "2024-01-01", "abc"] 5
    (GoValue.ptr (GoValue.intv 0))
    ⟨"optionalptr", "abc", "int", some .external⟩
    (by decide) (by decide) (by decide) (by decide) (by decide) (by decide) (by decide)
  exact h.trans (by decide)

/-- C3: when a bound field's column index is at or beyond the row's
length (the row has no cell at that position) and the fields before it
processed without error, the populate loop returns a `CSVError` naming
that field's column with value "index out of range" — a returned decode
error, never a panic (the model reads a cell only under the bounds
check, mirroring the source's guard). -/
theorem populate_short_row_decode_error (ora : Oracles) (st : CSVReaderState)
    (pre : List (StructField × GoValue)) (field : StructField) (fv : GoValue)
    (rest : List (StructField × GoValue)) (record : List String) (ci : Nat)
    (hpre : (populateFields ora st pre record).2 = none)
    (hset : field.canSet = true)
    (hname : (parseCSVTag st.timeLayout field).name ≠ "-")
    (hci : headerIndex st.headers (parseCSVTag st.timeLayout field).name = some ci)
    (hge : record.length ≤ ci) :
    populateFields ora st (pre ++ (field, fv) :: rest) record =
      ((populateFields ora st pre record).1 ++ fv :: rest.map Prod.snd,
       some ⟨(parseCSVTag st.timeLayout field).name, "index out of range", "", none⟩) := by
  rw [populateFields_append_of_ok ora st pre ((field, fv) :: rest) record hpre]
  have hcs : ¬field.canSet = false := by simp [hset]
  simp [populateFields, hcs, hname, hci, hge]

theorem populate_short_row_decode_error_witness :
    populateFields goOracles testState
      ([(⟨"StringField", "string_field", .string, true⟩, GoValue.str "")] ++
        (⟨"BoolField", "bool_field", .bool, true⟩, GoValue.boolv false) ::
        [(⟨"IntField", "int_field", .int, true⟩, GoValue.intv 0)])
      ["v"] =
      ([GoValue.str "v", GoValue.boolv false, GoValue.intv 0],
       some ⟨"bool_field", "index out of range", "", none⟩) := by
  have h := populate_short_row_decode_error goOracles testState
    [(⟨"StringField", "string_field", .string, true⟩, GoValue.str "")]
    ⟨"BoolField", "bool_field", .bool, true⟩ (GoValue.boolv false)
    [(⟨"IntField", "int_field", .int, true⟩, GoValue.intv 0)]
    ["v"] 3
    (by decide) (by decide) (by decide) (by decide) (by decide)
  exact h.trans (by decide)

end gocsv

namespace gocsv

/-- The fallback scan: a layout list whose members all fail yields no
result. -/
theorem scanLayouts_none (ora : Oracles) (tl value : String) :
    ∀ ls : List String, (∀ l ∈ ls, ora.timeParse l value = none) →
      scanLayouts ora tl value ls = none := by
  intro ls h
  induction ls with
  | nil => simp [scanLayouts]
  | cons hd tlay ih =>
    have hhd := h hd (by simp)
    simp only [scanLayouts, hhd]
    exact ih (fun l hl => h l (by simp [hl]))

/-- The fallback scan: the first layout of the list that parses the
value wins, and its parse is re-rendered with the default layout. -/
theorem scanLayouts_first (ora : Oracles) (tl value : String)
    (l : String) (t : GoTime) (post : List String) :
    ∀ pre : List String, (∀ l2 ∈ pre, ora.timeParse l2 value = none) →
      ora.timeParse l value = some t →
      scanLayouts ora tl value (pre ++ l :: post) = some (ora.timeFormat tl t) := by
  intro pre
  induction pre with
  | nil => intro _ hl; simp [scanLayouts, hl]
  | cons hd tlay ih =>
    intro hpre hl
    have hhd := hpre hd (by simp)
    simp only [List.cons_append, scanLayouts, hhd]
    exact ih (fun l2 h2 => hpre l2 (by simp [h2])) hl

/-- C4: timestamp coercion first parses the raw text with the effective
format and returns that parse on success; on failure it scans the fixed
`commonLayouts` list in order, the first layout that parses wins, its
instant is re-rendered with the reader's default layout and that
rendering is re-parsed with the default layout to produce the result
(failure of that re-parse, like total fallback failure, yields a
`time.Time`-kind `CSVError` carrying the original raw text). -/
theorem setTimeValue_fallback_spec (ora : Oracles) (tl value fmt fn : String)
    (hv : value ≠ "") :
    (∀ t, ora.timeParse fmt value = some t →
      setTimeValue ora tl value fmt fn = .ok t)
    ∧ (∀ pre l post t, ora.timeParse fmt value = none →
        commonLayouts = pre ++ l :: post →
        (∀ l2 ∈ pre, ora.timeParse l2 value = none) →
        ora.timeParse l value = some t →
        setTimeValue ora tl value fmt fn =
          (match ora.timeParse tl (ora.timeFormat tl t) with
           | some t2 => Except.ok t2
           | none => Except.error ⟨fn, value, "time.Time", some .external⟩))
    ∧ (ora.timeParse fmt value = none →
        (∀ l ∈ commonLayouts, ora.timeParse l value = none) →
        setTimeValue ora tl value fmt fn =
          .error ⟨fn, value, "time.Time", some .external⟩) := by
  refine ⟨?_, ?_, ?_⟩
  · intro t ht
    simp [setTimeValue, ht]
  · intro pre l post t hnone hsplit hpre hl
    have hscan : scanLayouts ora tl value commonLayouts = some (ora.timeFormat tl t) := by
      rw [hsplit]
      exact scanLayouts_first ora tl value l t post pre hpre hl
    simp only [setTimeValue, hnone, sanitizeTimeValue, hv, if_neg hv, hscan]
    cases h2 : ora.timeParse tl (ora.timeFormat tl t) <;> simp [h2]
  · intro hnone hall
    have hscan : scanLayouts ora tl value commonLayouts = none :=
      scanLayouts_none ora tl value commonLayouts hall
    simp [setTimeValue, hnone, sanitizeTimeValue, hv, hscan]

theorem setTimeValue_fallback_spec_witness :
    setTimeValue goOracles "2006-01-02" "2006-01-02 15:04:05" "2006-01-02" "datefield" =
      .ok ⟨2006, 1, 2, 0, 0, 0⟩ := by
  have h := (setTimeValue_fallback_spec goOracles "2006-01-02" "2006-01-02 15:04:05"
      "2006-01-02" "datefield" (by decide)).2.1
    [Layout, ANSIC, UnixDate, RubyDate, RFC822, RFC822Z,
     RFC850, RFC1123, RFC1123Z, RFC3339, RFC3339Nano,
     Kitchen, Stamp, StampMilli, StampMicro, StampNano]
    DateTime [DateOnly, TimeOnly] ⟨2006, 1, 2, 15, 4, 5⟩
    (by decide) rfl (by decide) (by decide)
  exact h.trans (by decide)

end gocsv

namespace gocsv

/-- C5 counterexample: for the annotation `"d,Jan 02, 2006"` — whose text
after the first comma is the comma-containing format `"Jan 02, 2006"` —
`parseCSVTag` yields the format `"Jan 02"`, the second comma-separated
component only, NOT the entire remaining text; a timestamp format that
itself contains a comma is truncated, refuting the claim. -/
theorem parseCSVTag_comma_format_truncated_cex :
    parseCSVTag "2006-01-02" ⟨"DateField", "d,Jan 02, 2006", .time, true⟩ =
      ⟨"d", "Jan 02"⟩ ∧ ("Jan 02" : String) ≠ "Jan 02, 2006" := by
  constructor
  · decide
  · decide

/-- C5 amended: the annotation is split on EVERY comma (`strings.Split`);
the column name is the first component (the text before the first
comma), and the per-field timestamp format is the SECOND component (the
text between the first and the second comma), so a format containing a
comma is truncated at that comma; text after a second comma is dropped. -/
theorem parseCSVTag_second_component (timeLayout : String) (field : StructField)
    (p0 p1 : String) (ps : List String)
    (hne : field.tag ≠ "")
    (hsplit : splitOnComma field.tag = p0 :: p1 :: ps) :
    parseCSVTag timeLayout field = ⟨p0, p1⟩ := by
  simp only [parseCSVTag, if_neg hne, hsplit]

theorem parseCSVTag_second_component_witness :
    parseCSVTag "2006-01-02" ⟨"DateField", "d,Jan 02, 2006", .time, true⟩ =
      ⟨"d", "Jan 02"⟩ := by
  exact parseCSVTag_second_component "2006-01-02"
    ⟨"DateField", "d,Jan 02, 2006", .time, true⟩ "d" "Jan 02" [" 2006"]
    (by decide) (by decide)

end gocsv

namespace gocsv

/-- Characterization of `ValidateTimeLayout`'s success, shared by the
round-trip results below. -/
theorem validate_ok_char (ora : Oracles) (L : String) :
    ValidateTimeLayout ora L = .ok () ↔
      (L ≠ "" ∧ strContains L "2006" = true ∧
       (strContains L "01" || strContains L "Jan") = true ∧
       strContains L "02" = true ∧
       ∃ t, ora.timeParse L (ora.timeFormat L referenceTime) = some t ∧
         ora.timeFormat L t = ora.timeFormat L referenceTime) := by
  by_cases hL : L = ""
  · simp [ValidateTimeLayout, hL]
  · cases hY : strContains L "2006"
    · simp [ValidateTimeLayout, hL, hY]
    · cases hM : (strContains L "01" || strContains L "Jan")
      · simp [ValidateTimeLayout, hL, hY, hM]
      · cases hD : strContains L "02"
        · simp [ValidateTimeLayout, hL, hY, hM, hD]
        · rcases hp : ora.timeParse L (ora.timeFormat L referenceTime) with _ | t
          · simp [ValidateTimeLayout, hL, hY, hM, hD, hp]
          · simp only [ValidateTimeLayout, hL, hY, hM, hD, hp, if_false,
              Bool.not_true, Bool.or_self, if_neg (by simp : ¬((false || false || false) = true))]
            by_cases hr : ora.timeFormat L referenceTime = ora.timeFormat L t
            · rw [if_pos hr]
              exact ⟨fun _ => ⟨hL, trivial, trivial, trivial, t, rfl, hr.symm⟩, fun _ => rfl⟩
            · rw [if_neg hr]
              constructor
              · intro hc
                exact absurd hc (by simp)
              · rintro ⟨h1, h2, h3, h4, t2, ht2, hf2⟩
                cases ht2
                exact absurd hf2.symm hr

end gocsv

namespace gocsv

/-- An `Except String Unit` value is the success or some error. -/
theorem except_unit_ok_or_error (x : Except String Unit) :
    x = .ok () ∨ ∃ e, x = .error e := by
  cases x with
  | error e => exact .inr ⟨e, rfl⟩
  | ok u => cases u; exact .inl rfl

/-- C6 counterexample: the layout `"2006-01-02"` is accepted by
`ValidateTimeLayout` (under the concrete time model), yet re-parsing the
reference instant's rendering with that layout yields midnight of
2006-01-02 — a time NOT equal to the reference instant 2006-01-02
15:04:05 — refuting the reading that re-parsing must reproduce a time
equal to the original reference instant. -/
theorem validateTimeLayout_not_instant_roundtrip_cex :
    ValidateTimeLayout goOracles "2006-01-02" = .ok () ∧
    goOracles.timeParse "2006-01-02" (goOracles.timeFormat "2006-01-02" referenceTime) =
      some ⟨2006, 1, 2, 0, 0, 0⟩ ∧
    (⟨2006, 1, 2, 0, 0, 0⟩ : GoTime) ≠ referenceTime := by
  refine ⟨by decide, by decide, by decide⟩

/-- C6 amended: for every layout `L` accepted by
`SetTimeLayout`/`ValidateTimeLayout`, re-parsing the reference
instant's rendering with `L` succeeds and re-rendering the parsed time
reproduces the identical rendering (a text-level round trip; the parsed
time need not equal the reference instant); and every `L` that is
empty, lacks year/month/day tokens, or fails that text round trip is
rejected (for example `"2006"` alone, or the empty string). -/
theorem validateTimeLayout_rendering_roundtrip (ora : Oracles) (L : String) :
    (ValidateTimeLayout ora L = .ok () →
      ∃ t, ora.timeParse L (ora.timeFormat L referenceTime) = some t ∧
        ora.timeFormat L t = ora.timeFormat L referenceTime)
    ∧ (L = "" → ∃ e, ValidateTimeLayout ora L = .error e)
    ∧ (strContains L "2006" = false ∨
        (strContains L "01" = false ∧ strContains L "Jan" = false) ∨
        strContains L "02" = false →
        ∃ e, ValidateTimeLayout ora L = .error e)
    ∧ (ora.timeParse L (ora.timeFormat L referenceTime) = none →
        ∃ e, ValidateTimeLayout ora L = .error e)
    ∧ (∀ t, ora.timeParse L (ora.timeFormat L referenceTime) = some t →
        ora.timeFormat L t ≠ ora.timeFormat L referenceTime →
        ∃ e, ValidateTimeLayout ora L = .error e) := by
  have hchar := validate_ok_char ora L
  refine ⟨?_, ?_, ?_, ?_, ?_⟩
  · intro hok
    obtain ⟨_, _, _, _, t, hp, hf⟩ := hchar.mp hok
    exact ⟨t, hp, hf⟩
  · intro hL
    rcases except_unit_ok_or_error (ValidateTimeLayout ora L) with hok | he
    · exact absurd hL (hchar.mp hok).1
    · exact he
  · intro hmiss
    rcases except_unit_ok_or_error (ValidateTimeLayout ora L) with hok | he
    · exfalso
      obtain ⟨h1, h2, h3, h4, _⟩ := hchar.mp hok
      rcases hmiss with hy | ⟨h01, hja⟩ | hd
      · rw [hy] at h2
        cases h2
      · rw [h01, hja] at h3
        cases h3
      · rw [hd] at h4
        cases h4
    · exact he
  · intro hpnone
    rcases except_unit_ok_or_error (ValidateTimeLayout ora L) with hok | he
    · exfalso
      obtain ⟨_, _, _, _, t, hp, _⟩ := hchar.mp hok
      rw [hpnone] at hp
      cases hp
    · exact he
  · intro t hp hne
    rcases except_unit_ok_or_error (ValidateTimeLayout ora L) with hok | he
    · exfalso
      obtain ⟨_, _, _, _, t2, hp2, hf2⟩ := hchar.mp hok
      rw [hp] at hp2
      cases hp2
      exact hne hf2
    · exact he

/-- C7: `ValidateTimeLayout` succeeds exactly when the candidate is
non-empty, textually contains the year token "2006", a month token
("01" or "Jan") and the day token "02", and the round trip — render the
reference instant with the candidate, re-parse that rendering with the
candidate, re-render the parsed time with the candidate — produces text
identical to the first rendering; in every other case it returns an
error. -/
theorem validateTimeLayout_ok_iff (ora : Oracles) (L : String) :
    ValidateTimeLayout ora L = .ok () ↔
      (L ≠ "" ∧ strContains L "2006" = true ∧
       (strContains L "01" || strContains L "Jan") = true ∧
       strContains L "02" = true ∧
       ∃ t, ora.timeParse L (ora.timeFormat L referenceTime) = some t ∧
         ora.timeFormat L t = ora.timeFormat L referenceTime) :=
  validate_ok_char ora L

end gocsv

namespace gocsv

/-- C8: when the layout fails validation, `SetTimeLayout` returns a
`CSVError` wrapping the validation failure and the reader's state —
including its default timestamp format — is unchanged; when the layout
passes validation, the default format afterwards is the given layout. -/
theorem setTimeLayout_spec (ora : Oracles) (st : CSVReaderState) (layout : String) :
    (∀ e, ValidateTimeLayout ora layout = .error e →
      SetTimeLayout ora st layout =
        (st, some ⟨"timeLayout", layout, "string", some (.msg e)⟩))
    ∧ (ValidateTimeLayout ora layout = .ok () →
      SetTimeLayout ora st layout = ({ st with timeLayout := layout }, none)) := by
  constructor
  · intro e he
    simp [SetTimeLayout, he]
  · intro h
    simp [SetTimeLayout, h]

/-- C9: boolean coercion is case-insensitive and maps exactly the
lowercase forms "true"/"1"/"yes"/"y" to true and "false"/"0"/"no"/"n"
to false; every other input makes `parseBool` fail and makes
`setFieldValue` on a bool-kind field return an error tagged with type
"bool", leaving the field's value unchanged. -/
theorem parseBool_vocabulary (ora : Oracles) (tl : String) (cur : GoValue)
    (v tf fn : String) :
    parseBool v = (if toLowerStr v ∈ (["true", "1", "yes", "y"] : List String) then .ok true
      else if toLowerStr v ∈ (["false", "0", "no", "n"] : List String) then .ok false
      else .error ("invalid boolean value: " ++ toLowerStr v))
    ∧ setFieldValue ora tl .bool cur v tf fn =
        (if toLowerStr v ∈ (["true", "1", "yes", "y"] : List String) then
          (GoValue.boolv true, none)
         else if toLowerStr v ∈ (["false", "0", "no", "n"] : List String) then
          (GoValue.boolv false, none)
         else (cur, some ⟨toLowerStr fn, v, "bool",
           some (.msg ("invalid boolean value: " ++ toLowerStr v))⟩)) := by
  constructor
  · simp only [parseBool, List.mem_cons, List.mem_singleton, List.not_mem_nil, or_false]
  · simp only [setFieldValue, parseBool, List.mem_cons, List.mem_singleton,
      List.not_mem_nil, or_false]
    split_ifs <;> rfl

/-- C10: for every destination that is not a non-nil pointer to a
struct — a nil pointer, a non-pointer value, or a pointer to a
non-struct — `ReadNext` returns a structured `CSVError` (never a
panic: the model is a total function), and the data row has already
been consumed from the row source, so the remaining rows after the call
are the tail of the rows before it. -/
theorem readNext_bad_destination (ora : Oracles) (st : CSVReaderState)
    (record : List String) (rest : List (List String)) (tn : String) :
    ReadNext ora st (record :: rest) (.nilPtr tn) =
      (rest, .destErr ⟨"destination", tn, "pointer", none⟩)
    ∧ ReadNext ora st (record :: rest) (.nonPointer tn) =
      (rest, .destErr ⟨"destination", tn, "pointer", none⟩)
    ∧ ReadNext ora st (record :: rest) (.ptrToNonStruct tn) =
      (rest, .destErr ⟨"destination", tn, "struct", none⟩) :=
  ⟨rfl, rfl, rfl⟩

end gocsv
